import Mathlib

/-!
Verification of the fueli_petrol_qdrant ingestion/migration pipeline.

Shallow embedding of the pure algorithmic content of
`src/preprocess_data.py` and `src/migrate_to_cloud.py`:
numeric normalization, batching, deterministic id assignment,
idempotent upsert, per-batch retry, driver loops, scroll cap and
count verification.  Strings are `List Char`; Python floats on the
decimal literals the pipeline builds are modelled as `Option ℚ`.
-/

namespace FueliPetrol

variable {α : Type*} {β : Type*}

/-! ## Record normalizer: `convert_numeric` (src/preprocess_data.py lines 20-29) -/

/-- Model of `str.replace('.', '')`: drop every dot. -/
def stripDots : List Char → List Char
  | [] => []
  | x :: xs => if x == '.' then stripDots xs else x :: stripDots xs

/-- Model of Python `s.rsplit(c, 1)`: split at the LAST occurrence of `c`;
`none` when `c` does not occur (Python then returns the one-element list `[s]`). -/
def rsplitLast (c : Char) : List Char → Option (List Char × List Char)
  | [] => none
  | x :: xs =>
    match rsplitLast c xs with
    | some p => some (x :: p.1, p.2)
    | none => if x == c then some ([], xs) else none

def digitVal (c : Char) : Nat := c.toNat - '0'.toNat

def digitsVal (s : List Char) : Nat := s.foldl (fun a c => 10 * a + digitVal c) 0

def allDigits (s : List Char) : Bool := s.all Char.isDigit

/-- Split at the FIRST occurrence of `c`. -/
def splitFirst (c : Char) : List Char → Option (List Char × List Char)
  | [] => none
  | x :: xs =>
    if x == c then some ([], xs)
    else (splitFirst c xs).map (fun p => (x :: p.1, p.2))

/-- Model of Python `float` restricted to the plain decimal literals this
pipeline can build: optional sign, digits, at most one point, at least one
digit overall; anything else fails (`ValueError` becomes `none`). -/
def parseUnsigned (s : List Char) : Option ℚ :=
  match splitFirst '.' s with
  | none => if s ≠ [] ∧ allDigits s then some (mkRat (digitsVal s) 1) else none
  | some p =>
    if p.2.contains '.' = false ∧ allDigits p.1 ∧ allDigits p.2 ∧ p.1 ++ p.2 ≠ [] then
      some (mkRat (digitsVal p.1 * 10 ^ p.2.length + digitsVal p.2) (10 ^ p.2.length))
    else none

def parseFloat : List Char → Option ℚ
  | '-' :: rest => (parseUnsigned rest).map (fun q => -q)
  | '+' :: rest => parseUnsigned rest
  | s => parseUnsigned s

/-- `convert_numeric` from src/preprocess_data.py (string branch; the
`pd.isna` guard for missing values is outside the claims' scope):
split at the last comma; if a comma exists, strip dots from the left part
and parse left ++ "." ++ right; otherwise parse the input with dots stripped. -/
def convert_numeric (s : List Char) : Option ℚ :=
  match rsplitLast ',' s with
  | some p => parseFloat (stripDots p.1 ++ '.' :: p.2)
  | none => parseFloat (stripDots s)

/-- Replace the last comma of `s` by a point (identity when there is no comma). -/
def replaceLastComma (s : List Char) : List Char :=
  match rsplitLast ',' s with
  | some p => p.1 ++ '.' :: p.2
  | none => s

/-- Modelled from the spec: "the converted float equals the value obtained by
removing dots and replacing the final comma with a point". -/
def convertNumericSpec (s : List Char) : Option ℚ :=
  parseFloat (replaceLastComma (stripDots s))

/-- No dot occurs after the last comma (vacuously true without a comma);
this is exactly the "dots are thousands separators" shape of the claim. -/
def dotFreeAfterComma (s : List Char) : Bool :=
  match rsplitLast ',' s with
  | some p => p.2.contains '.' = false
  | none => true

theorem rsplitLast_stripDots (s : List Char) :
    rsplitLast ',' (stripDots s) =
      (rsplitLast ',' s).map (fun p => (stripDots p.1, stripDots p.2)) := by
  induction s with
  | nil => rfl
  | cons x xs ih =>
    by_cases hx : x = '.'
    · subst hx
      cases h : rsplitLast ',' xs with
      | none => simp [stripDots, rsplitLast, h, ih]
      | some p => simp [stripDots, rsplitLast, h, ih]
    · cases h : rsplitLast ',' xs with
      | none =>
        by_cases hc : x = ','
        · subst hc
          simp [stripDots, rsplitLast, h, ih]
        · simp [stripDots, rsplitLast, h, ih, hx, hc]
      | some p => simp [stripDots, rsplitLast, h, ih, hx]

theorem stripDots_eq_self (s : List Char) (h : s.contains '.' = false) :
    stripDots s = s := by
  induction s with
  | nil => rfl
  | cons x xs ih =>
    simp only [List.contains_cons, Bool.or_eq_false_iff, beq_eq_false_iff_ne] at h
    simp [stripDots, ih h.2, Ne.symm h.1]

/-- C1: on every input whose dots all precede the final comma (in particular,
on every string with exactly one decimal comma and zero or more thousands
dots, and on every comma-free string), `convert_numeric` returns the float
obtained by stripping the thousands dots and replacing the final comma with a
decimal point — the code agrees with the spec-side normalization rule. -/
theorem convert_numeric_matches_spec (s : List Char)
    (h : dotFreeAfterComma s = true) :
    convert_numeric s = convertNumericSpec s := by
  unfold convert_numeric convertNumericSpec replaceLastComma
  unfold dotFreeAfterComma at h
  cases hs : rsplitLast ',' s with
  | none =>
    rw [rsplitLast_stripDots, hs]
    rfl
  | some p =>
    rw [hs] at h
    rw [rsplitLast_stripDots, hs]
    show parseFloat (stripDots p.1 ++ '.' :: p.2) =
      parseFloat (stripDots p.1 ++ '.' :: stripDots p.2)
    rw [stripDots_eq_self p.2 (by simpa using h)]

theorem convert_numeric_matches_spec_witness :
    dotFreeAfterComma ("1.234,56".toList) = true ∧
    convert_numeric ("1.234,56".toList) = convertNumericSpec ("1.234,56".toList) ∧
    convert_numeric ("1.234,56".toList) = some (mkRat 123456 100) ∧
    convert_numeric ("56".toList) = some (mkRat 56 1) :=
  ⟨by decide, convert_numeric_matches_spec _ (by decide), by decide, by decide⟩

/-! ## Batcher (src/preprocess_data.py lines 107-108, src/migrate_to_cloud.py line 74)

The Python loops `for i in range(0, len(l), n): batch = l[i:i+n]` are modelled
with an explicit iteration bound `fuel`; the wrappers instantiate
`fuel := l.length`, which suffices because every iteration with `n ≥ 1`
consumes at least one element.  (`range` with step `0` raises in Python; here
`n = 0` just stops, and every theorem assumes `1 ≤ n`.) -/

def batchAux (n : Nat) : Nat → List α → List (List α)
  | _, [] => []
  | 0, _ :: _ => []
  | fuel + 1, l => l.take n :: batchAux n fuel (l.drop n)

/-- The list of consecutive slices `l[i : i+n]`, `i = 0, n, 2n, ...`. -/
def batch (l : List α) (n : Nat) : List (List α) :=
  batchAux n l.length l

theorem batchAux_flatten (n : Nat) (h : 1 ≤ n) :
    ∀ (fuel : Nat) (l : List α), l.length ≤ fuel → (batchAux n fuel l).flatten = l := by
  intro fuel
  induction fuel with
  | zero =>
    intro l hl
    cases l with
    | nil => rfl
    | cons x xs => simp at hl
  | succ fuel ih =>
    intro l hl
    cases l with
    | nil => rfl
    | cons x xs =>
      show ((x :: xs).take n :: batchAux n fuel ((x :: xs).drop n)).flatten = x :: xs
      rw [List.flatten_cons, ih ((x :: xs).drop n) (by simp only [List.length_drop, List.length_cons] at hl ⊢; omega)]
      exact List.take_append_drop n (x :: xs)

/-- C2: splitting into consecutive fixed-size chunks and flattening back
reproduces the original sequence, for every chunk size `n ≥ 1` and every
input length (including 0 and 1). -/
theorem batch_flatten (l : List α) (n : Nat) (h : 1 ≤ n) :
    (batch l n).flatten = l :=
  batchAux_flatten n h l.length l (Nat.le_refl _)

theorem batch_flatten_witness :
    ((1 : Nat) ≤ 2 ∧ (batch ([] : List Nat) 2).flatten = []) ∧
    ((1 : Nat) ≤ 2 ∧ (batch [7] 2).flatten = [7]) ∧
    ((1 : Nat) ≤ 3 ∧ (batch [1, 2, 3, 4, 5, 6, 7] 3).flatten = [1, 2, 3, 4, 5, 6, 7]) :=
  ⟨⟨by decide, batch_flatten _ _ (by decide)⟩,
   ⟨by decide, batch_flatten _ _ (by decide)⟩,
   ⟨by decide, batch_flatten _ _ (by decide)⟩⟩

/-! ## Deterministic id assignment (C5)

`populate_collection` (src/preprocess_data.py lines 107-131) builds, for the
batch starting at `i`, points with `id = i + idx` where `idx` enumerates the
batch; `migrate_batch` (src/migrate_to_cloud.py lines 74-93) builds
`ids = range(offset, offset + len(batch))` zipped with the batch, and
`migrate_data` advances `offset` by the batch length.  Both are modelled as
the list of `(id, record)` pairs produced across the whole run. -/

def populateAux (bs : Nat) : Nat → List α → Nat → List (Nat × α)
  | _, [], _ => []
  | 0, _ :: _, _ => []
  | fuel + 1, l, i =>
      (l.take bs).enum.map (fun p => (i + p.1, p.2)) ++
        populateAux bs fuel (l.drop bs) (i + bs)

def populatePoints (data : List α) (bs : Nat) : List (Nat × α) :=
  populateAux bs data.length data 0

def migrateAux (bs : Nat) : Nat → List α → Nat → List (Nat × α)
  | _, [], _ => []
  | 0, _ :: _, _ => []
  | fuel + 1, l, offset =>
      (List.range' offset (l.take bs).length).zip (l.take bs) ++
        migrateAux bs fuel (l.drop bs) (offset + (l.take bs).length)

def migratePoints (points : List α) (bs : Nat) : List (Nat × α) :=
  migrateAux bs points.length points 0

theorem map_add_enumFrom (l : List α) (i : Nat) :
    ∀ k, (l.enumFrom k).map (fun p => (i + p.1, p.2)) = l.enumFrom (i + k) := by
  induction l with
  | nil => intro k; rfl
  | cons x xs ih =>
    intro k
    simp only [List.enumFrom_cons, List.map_cons, ih (k + 1)]
    rw [← Nat.add_assoc]

theorem populateAux_eq_enumFrom (bs : Nat) (h : 1 ≤ bs) :
    ∀ (fuel : Nat) (l : List α) (i : Nat), l.length ≤ fuel →
      populateAux bs fuel l i = l.enumFrom i := by
  intro fuel
  induction fuel with
  | zero =>
    intro l i hl
    cases l with
    | nil => rfl
    | cons x xs => simp at hl
  | succ fuel ih =>
    intro l i hl
    cases l with
    | nil => rfl
    | cons x xs =>
      show ((x :: xs).take bs).enum.map (fun p => (i + p.1, p.2)) ++
          populateAux bs fuel ((x :: xs).drop bs) (i + bs) = (x :: xs).enumFrom i
      rw [ih ((x :: xs).drop bs) (i + bs) (by simp only [List.length_drop, List.length_cons] at hl ⊢; omega)]
      have hshift : ((x :: xs).take bs).enum.map (fun p => (i + p.1, p.2)) =
          ((x :: xs).take bs).enumFrom i := by
        have := map_add_enumFrom ((x :: xs).take bs) i 0
        simpa using this
      rw [hshift]
      by_cases hbs : bs ≤ (x :: xs).length
      · have hlen : ((x :: xs).take bs).length = bs := by
          simp only [List.length_take, List.length_cons] at hbs ⊢; omega
        conv_rhs => rw [← List.take_append_drop bs (x :: xs)]
        rw [List.enumFrom_append, hlen]
      · have hdrop : (x :: xs).drop bs = [] := by
          apply List.drop_eq_nil_of_le; omega
        have htake : (x :: xs).take bs = x :: xs := by
          apply List.take_of_length_le; omega
        rw [hdrop, htake]
        simp

theorem migrateAux_eq_enumFrom (bs : Nat) (h : 1 ≤ bs) :
    ∀ (fuel : Nat) (l : List α) (offset : Nat), l.length ≤ fuel →
      migrateAux bs fuel l offset = l.enumFrom offset := by
  intro fuel
  induction fuel with
  | zero =>
    intro l i hl
    cases l with
    | nil => rfl
    | cons x xs => simp at hl
  | succ fuel ih =>
    intro l i hl
    cases l with
    | nil => rfl
    | cons x xs =>
      show (List.range' i ((x :: xs).take bs).length).zip ((x :: xs).take bs) ++
          migrateAux bs fuel ((x :: xs).drop bs) (i + ((x :: xs).take bs).length) =
          (x :: xs).enumFrom i
      rw [ih ((x :: xs).drop bs) _ (by simp only [List.length_drop, List.length_cons] at hl ⊢; omega)]
      rw [← List.enumFrom_eq_zip_range']
      conv_rhs => rw [← List.take_append_drop bs (x :: xs)]
      rw [List.enumFrom_append]

/-- C5: across the whole run, for every batch size `bs ≥ 1` and every input,
the record at zero-based position `k` is turned into the point with id
exactly `k` (batch offset plus index within the batch) — in both the
ingestion driver and the migration driver the produced `(id, record)` pairs
are precisely the enumeration of the input. -/
theorem point_ids_are_positions (data : List α) (bs : Nat) (h : 1 ≤ bs) :
    populatePoints data bs = data.enum ∧ migratePoints data bs = data.enum := by
  constructor
  · exact populateAux_eq_enumFrom bs h data.length data 0 (Nat.le_refl _)
  · exact migrateAux_eq_enumFrom bs h data.length data 0 (Nat.le_refl _)

theorem point_ids_are_positions_witness :
    (1 : Nat) ≤ 2 ∧
    populatePoints [10, 20, 30] 2 = [(0, 10), (1, 20), (2, 30)] ∧
    migratePoints [10, 20, 30] 2 = [(0, 10), (1, 20), (2, 30)] :=
  ⟨by decide,
   (point_ids_are_positions [10, 20, 30] 2 (by decide)).1.trans (by decide),
   (point_ids_are_positions [10, 20, 30] 2 (by decide)).2.trans (by decide)⟩

/-! ## Idempotent upsert (C6)

The vector index is a map from id to point (`none` = absent); `upsert`
(src/migrate_to_cloud.py lines 84-94, src/preprocess_data.py lines 134-137)
is insert-or-overwrite keyed by id, applied left-to-right over a batch. -/

def upsertPoint (m : Nat → Option α) (id : Nat) (p : α) : Nat → Option α :=
  fun k => if k = id then some p else m k

def upsertBatch (m : Nat → Option α) (pts : List (Nat × α)) : Nat → Option α :=
  pts.foldl (fun acc q => upsertPoint acc q.1 q.2) m

/-- Number of stored points with id below `domBound`. -/
def pointCount (m : Nat → Option α) (domBound : Nat) : Nat :=
  (List.range domBound).countP (fun k => (m k).isSome)

theorem upsertBatch_congr (pts : List (Nat × α)) :
    ∀ m₁ m₂ : Nat → Option α,
      (∀ k, (∀ q ∈ pts, q.1 ≠ k) → m₁ k = m₂ k) →
      upsertBatch m₁ pts = upsertBatch m₂ pts := by
  induction pts with
  | nil =>
    intro m₁ m₂ hk
    funext k
    exact hk k (by simp)
  | cons q ps ih =>
    intro m₁ m₂ hk
    show upsertBatch (upsertPoint m₁ q.1 q.2) ps = upsertBatch (upsertPoint m₂ q.1 q.2) ps
    apply ih
    intro k hkps
    unfold upsertPoint
    by_cases hq : k = q.1
    · simp [hq]
    · rw [if_neg hq, if_neg hq]
      apply hk k
      intro r hr
      rcases List.mem_cons.mp hr with h | h
      · subst h
        exact fun he => hq he.symm
      · exact hkps r h

theorem upsertBatch_not_mem (pts : List (Nat × α)) :
    ∀ (m : Nat → Option α) (k : Nat), (∀ q ∈ pts, q.1 ≠ k) → upsertBatch m pts k = m k := by
  induction pts with
  | nil => intro m k _; rfl
  | cons q ps ih =>
    intro m k hk
    show upsertBatch (upsertPoint m q.1 q.2) ps k = m k
    rw [ih _ k (fun r hr => hk r (List.mem_cons_of_mem _ hr))]
    unfold upsertPoint
    rw [if_neg (fun he => hk q (List.mem_cons_self _ _) he.symm)]

/-- C6: upserting the same batch twice leaves the index in exactly the state
reached after one upsert, hence also the same point count — repeated
application with deterministic offset ids produces no duplication. -/
theorem upsert_idempotent (m : Nat → Option α) (pts : List (Nat × α)) (domBound : Nat) :
    upsertBatch (upsertBatch m pts) pts = upsertBatch m pts ∧
    pointCount (upsertBatch (upsertBatch m pts) pts) domBound =
      pointCount (upsertBatch m pts) domBound := by
  have hstate : upsertBatch (upsertBatch m pts) pts = upsertBatch m pts := by
    apply upsertBatch_congr
    intro k hk
    exact upsertBatch_not_mem pts m k hk
  exact ⟨hstate, by rw [hstate]⟩

/-! ## Embedding size mismatch (C4): src/preprocess_data.py lines 118-131

`populate_collection` builds its points with
`enumerate(zip(batch, embeddings))`; Python's `zip` stops at the shorter
input, so a response with fewer embeddings than texts yields a shorter list
of points and NO exception. -/

/-- Per-batch point construction of `populate_collection`: id `i + idx`,
the text and its embedding, via `zip` then `enumerate`. -/
def buildBatchPoints (i : Nat) (batchItems : List α) (embeddings : List β) :
    List (Nat × α × β) :=
  (batchItems.zip embeddings).enum.map (fun p => (i + p.1, p.2))

/-- C4 counterexample: two input texts but a single returned embedding —
the code silently produces one point (for the truncated prefix) instead of
failing loudly for the batch. -/
theorem buildBatchPoints_truncates_silently :
    buildBatchPoints 0 [10, 20] ([99] : List Nat) = [(0, 10, 99)] ∧
    (buildBatchPoints 0 [10, 20] ([99] : List Nat)).length ≠ ([10, 20] : List Nat).length := by
  decide

/-- C4 amended: on a size mismatch the pipeline does not fail at all; it
silently builds points for exactly the zip-truncated prefix — the number of
points is the minimum of the two lengths, the produced list is the
enumeration of `texts.zip embeddings` from the batch offset, and whenever the
service returns fewer embeddings than texts, strictly fewer points than
input texts are produced (with no error raised). -/
theorem buildBatchPoints_spec (i : Nat) (texts : List α) (embs : List β) :
    (buildBatchPoints i texts embs).length = min texts.length embs.length ∧
    buildBatchPoints i texts embs = (texts.zip embs).enumFrom i ∧
    (embs.length < texts.length →
      (buildBatchPoints i texts embs).length < texts.length) := by
  have h2 : buildBatchPoints i texts embs = (texts.zip embs).enumFrom i := by
    have := map_add_enumFrom (texts.zip embs) i 0
    simpa [buildBatchPoints] using this
  refine ⟨?_, h2, ?_⟩
  · rw [h2]
    simp [List.length_zip]
  · intro hlt
    rw [h2]
    simp [List.length_zip]
    omega

theorem buildBatchPoints_spec_witness :
    ([7, 8] : List Nat).length < ([10, 20, 30] : List Nat).length ∧
    (buildBatchPoints 0 ([10, 20, 30] : List Nat) ([7, 8] : List Nat)).length <
      ([10, 20, 30] : List Nat).length :=
  ⟨by decide, (buildBatchPoints_spec 0 ([10, 20, 30] : List Nat) ([7, 8] : List Nat)).2.2
    (by decide)⟩

/-! ## Scroll cap (C10): src/migrate_to_cloud.py lines 109-117 -/

def SCROLL_LIMIT : Nat := 100000

/-- The single `scroll(..., limit=100000)` call of `migrate_data`: the index
returns at most `limit` points — the first ones of the source collection. -/
def scrollPoints (source : List α) : List α := source.take SCROLL_LIMIT

/-- `total_points = len(points)` in `migrate_data`. -/
def totalPoints (source : List α) : Nat := (scrollPoints source).length

/-- C10: the number of points considered for migration is capped at 100000:
it equals `min count 100000`, and the considered points are exactly the first
100000 of the source (the remainder is silently dropped, no error raised). -/
theorem scroll_cap (source : List α) :
    totalPoints source ≤ SCROLL_LIMIT ∧
    totalPoints source = min source.length SCROLL_LIMIT ∧
    scrollPoints source ++ source.drop SCROLL_LIMIT = source := by
  refine ⟨?_, ?_, List.take_append_drop _ _⟩
  · simp only [totalPoints, scrollPoints, List.length_take]
    exact Nat.min_le_left _ _
  · simp only [totalPoints, scrollPoints, List.length_take]
    exact Nat.min_comm _ _

/-! ## Migration verification (C8): src/migrate_to_cloud.py lines 138-156 -/

/-- `verify_migration`, given the two retrieved point counts: it reports both
counts (the printed lines, modelled as the returned pair) and returns whether
they are equal; there is no retry path in the function. -/
def verify_migration (localCount cloudCount : Nat) : Bool × Nat × Nat :=
  (localCount == cloudCount, localCount, cloudCount)

/-- C8: verification reports success exactly when the destination count
equals the source count, and on any difference reports a mismatch with both
counts visible, in one pass (the result is a pure function of the two
counts — nothing is retried). -/
theorem verify_migration_spec (localCount cloudCount : Nat) :
    ((verify_migration localCount cloudCount).1 = true ↔ localCount = cloudCount) ∧
    (verify_migration localCount cloudCount).2.1 = localCount ∧
    (verify_migration localCount cloudCount).2.2 = cloudCount := by
  refine ⟨?_, rfl, rfl⟩
  simp [verify_migration]

/-! ## Per-batch retry (C7): src/migrate_to_cloud.py lines 17-18 and 69-103 -/

def MAX_RETRIES : Nat := 3
def RETRY_DELAY : Nat := 2

/-- One pass of the `for attempt in range(MAX_RETRIES)` loop of
`migrate_batch`, with `rem` iterations left and `attempt` the current index.
`isEmpty`: the sliced batch is empty (then the function returns `True`
before any upsert).  `outcomes i`: whether the `i`-th upsert attempt
succeeds (otherwise it raises).  Result: (returned value, number of upsert
attempts made, total seconds slept); a sleep of `RETRY_DELAY` happens
after a failed attempt only when `attempt < MAX_RETRIES - 1`, i.e. when
iterations remain (`0 < rem`); `none` would mean the loop fell through,
impossible once `MAX_RETRIES ≥ 1`. -/
def mbLoop (isEmpty : Bool) (outcomes : Nat → Bool) : Nat → Nat → Option Bool × Nat × Nat
  | _, 0 => (none, 0, 0)
  | attempt, rem + 1 =>
    if isEmpty then (some true, 0, 0)
    else if outcomes attempt then (some true, 1, 0)
    else if 0 < rem then
      let r := mbLoop isEmpty outcomes (attempt + 1) rem
      (r.1, r.2.1 + 1, r.2.2 + RETRY_DELAY)
    else (some false, 1, 0)

def migrate_batch (isEmpty : Bool) (outcomes : Nat → Bool) : Option Bool × Nat × Nat :=
  mbLoop isEmpty outcomes 0 MAX_RETRIES

theorem migrate_batch_eq (isEmpty : Bool) (outcomes : Nat → Bool) :
    migrate_batch isEmpty outcomes =
      if isEmpty then (some true, 0, 0)
      else if outcomes 0 then (some true, 1, 0)
      else if outcomes 1 then (some true, 2, RETRY_DELAY)
      else if outcomes 2 then (some true, 3, 2 * RETRY_DELAY)
      else (some false, 3, 2 * RETRY_DELAY) := by
  cases isEmpty <;> cases h0 : outcomes 0 <;> cases h1 : outcomes 1 <;> cases h2 : outcomes 2 <;>
    simp [migrate_batch, mbLoop, MAX_RETRIES, RETRY_DELAY, h0, h1, h2]

/-- C7: `migrate_batch` makes at most `MAX_RETRIES` (3) upsert attempts;
it sleeps `RETRY_DELAY` exactly once between consecutive attempts and never
after the final failure (total sleep = (attempts - 1) · RETRY_DELAY); an
empty slice returns success with no attempt; it returns `False` exactly when
the batch is nonempty and all 3 attempts raise (and then all 3 attempts were
made); and it returns success as soon as an attempt succeeds: if attempt `i`
is the first to succeed, exactly `i + 1` attempts and `i` sleeps happen. -/
theorem migrate_batch_retry_spec (isEmpty : Bool) (outcomes : Nat → Bool) :
    (migrate_batch isEmpty outcomes).2.1 ≤ MAX_RETRIES ∧
    (migrate_batch isEmpty outcomes).2.2 =
      ((migrate_batch isEmpty outcomes).2.1 - 1) * RETRY_DELAY ∧
    (isEmpty = true → migrate_batch isEmpty outcomes = (some true, 0, 0)) ∧
    ((migrate_batch isEmpty outcomes).1 = some false ↔
      (isEmpty = false ∧ ∀ i < MAX_RETRIES, outcomes i = false)) ∧
    ((migrate_batch isEmpty outcomes).1 = some false →
      (migrate_batch isEmpty outcomes).2.1 = MAX_RETRIES) ∧
    (∀ i < MAX_RETRIES, isEmpty = false → outcomes i = true →
      (∀ j < i, outcomes j = false) →
      migrate_batch isEmpty outcomes = (some true, i + 1, i * RETRY_DELAY)) := by
  refine ⟨?_, ?_, ?_, ⟨?_, ?_⟩, ?_, ?_⟩
  · rw [migrate_batch_eq]
    split_ifs <;> simp [MAX_RETRIES]
  · rw [migrate_batch_eq]
    split_ifs <;> simp [RETRY_DELAY]
  · intro h
    subst h
    rw [migrate_batch_eq]
    simp
  · intro hfail
    rw [migrate_batch_eq] at hfail
    split_ifs at hfail with hEm h0 h1 h2
    · simp at hfail
    · simp at hfail
    · simp at hfail
    · simp at hfail
    · refine ⟨by simpa using hEm, ?_⟩
      intro i hi
      have hi3 : i < 3 := hi
      interval_cases i <;> simp_all
  · rintro ⟨hEm, hall⟩
    rw [migrate_batch_eq]
    simp [hEm, hall 0 (by decide), hall 1 (by decide), hall 2 (by decide), MAX_RETRIES]
  · intro hfail
    rw [migrate_batch_eq] at hfail ⊢
    split_ifs at hfail with hEm h0 h1 h2 <;> simp_all [MAX_RETRIES]
  · intro i hi hEm hsucc hprev
    subst hEm
    rw [migrate_batch_eq]
    simp only [Bool.false_eq_true, if_false]
    have hi3 : i < 3 := hi
    interval_cases i
    · simp [hsucc]
    · have hp0 := hprev 0 (by omega)
      simp [hp0, hsucc, RETRY_DELAY]
    · have hp0 := hprev 0 (by omega)
      have hp1 := hprev 1 (by omega)
      simp [hp0, hp1, hsucc, RETRY_DELAY]

theorem migrate_batch_retry_spec_witness :
    migrate_batch false (fun i => decide (i = 1)) = (some true, 1 + 1, 1 * RETRY_DELAY) ∧
    (migrate_batch false (fun _ => false)).1 = some false ∧
    (migrate_batch false (fun _ => false)).2.1 = MAX_RETRIES :=
  ⟨(migrate_batch_retry_spec false (fun i => decide (i = 1))).2.2.2.2.2 1 (by decide) rfl
      (by decide) (by decide),
   ((migrate_batch_retry_spec false (fun _ => false)).2.2.2.1).mpr ⟨rfl, by decide⟩,
   (migrate_batch_retry_spec false (fun _ => false)).2.2.2.2.1
     (((migrate_batch_retry_spec false (fun _ => false)).2.2.2.1).mpr ⟨rfl, by decide⟩)⟩

/-! ## Driver loops (C3): src/migrate_to_cloud.py lines 119-133 and
src/preprocess_data.py lines 106-142

`migrate_data` runs `while offset < total_points: success = migrate_batch(...);
if not success: break`, then returns `successful_points`.
`populate_collection` runs `for i in range(0, len(data), BATCH_SIZE)` with the
whole batch body in `try/except: continue`.  The per-batch outcome (its
retries included) is abstracted as `ok offset`.  Both loops advance by at
most `total` iterations, so `fuel := total` is exact. -/

def migrateLoopAux (ok : Nat → Bool) (total bs : Nat) : Nat → Nat → Nat → Nat × List Nat
  | 0, _, succ => (succ, [])
  | fuel + 1, offset, succ =>
    if offset < total then
      if ok offset then
        let b := min bs (total - offset)
        let r := migrateLoopAux ok total bs fuel (offset + b) (succ + b)
        (r.1, offset :: r.2)
      else (succ, [offset])
    else (succ, [])

/-- `migrate_data`: returns `(successful_points, attempted batch offsets)`. -/
def migrate_data (ok : Nat → Bool) (total bs : Nat) : Nat × List Nat :=
  migrateLoopAux ok total bs total 0 0

def populateLoopAux (ok : Nat → Bool) (total bs : Nat) : Nat → Nat → List Nat × List Nat
  | 0, _ => ([], [])
  | fuel + 1, i =>
    if i < total then
      let r := populateLoopAux ok total bs fuel (i + bs)
      (i :: r.1, if ok i then i :: r.2 else r.2)
    else ([], [])

/-- `populate_collection` loop: `(attempted batch starts, successful ones)`. -/
def populate_collection (ok : Nat → Bool) (total bs : Nat) : List Nat × List Nat :=
  populateLoopAux ok total bs total 0

/-- C3 counterexample: in the migration driver with 100 points and batch size
50, when the first batch (offset 0) exhausts its retries, the second batch
(offset 50) is NOT attempted — the loop `break`s — contradicting "every
subsequent batch is still attempted". -/
theorem migrate_data_aborts_on_failure :
    (migrate_data (fun o => decide (o ≠ 0)) 100 50).2 = [0] ∧
    ¬ (50 ∈ (migrate_data (fun o => decide (o ≠ 0)) 100 50).2) ∧
    (migrate_data (fun o => decide (o ≠ 0)) 100 50).1 = 0 := by
  decide

theorem populateLoopAux_attempted (total bs : Nat) (ok okB : Nat → Bool) :
    ∀ fuel i, (populateLoopAux ok total bs fuel i).1 =
      (populateLoopAux okB total bs fuel i).1 := by
  intro fuel
  induction fuel with
  | zero => intro i; rfl
  | succ fuel ih =>
    intro i
    by_cases h : i < total <;> simp [populateLoopAux, h, ih]

theorem migrateLoopAux_fail (ok : Nat → Bool) (total bs : Nat) :
    ∀ fuel offset, ∀ o ∈ (migrateLoopAux ok total bs fuel offset offset).2,
      ok o = false →
      (migrateLoopAux ok total bs fuel offset offset).2.getLast? = some o ∧
      (migrateLoopAux ok total bs fuel offset offset).1 = o := by
  intro fuel
  induction fuel with
  | zero => intro offset o ho; simp [migrateLoopAux] at ho
  | succ fuel ih =>
    intro offset o ho hfalse
    by_cases hlt : offset < total
    · by_cases hok : ok offset = true
      · have h2 : (migrateLoopAux ok total bs (fuel + 1) offset offset).2 =
            offset :: (migrateLoopAux ok total bs fuel (offset + min bs (total - offset))
              (offset + min bs (total - offset))).2 := by
          simp [migrateLoopAux, hlt, hok]
        have h1 : (migrateLoopAux ok total bs (fuel + 1) offset offset).1 =
            (migrateLoopAux ok total bs fuel (offset + min bs (total - offset))
              (offset + min bs (total - offset))).1 := by
          simp [migrateLoopAux, hlt, hok]
        rw [h2] at ho
        simp only [List.mem_cons] at ho
        rcases ho with h | h
        · subst h
          rw [hok] at hfalse
          exact absurd hfalse (by simp)
        · have hI := ih (offset + min bs (total - offset)) o h hfalse
          refine ⟨?_, by rw [h1]; exact hI.2⟩
          rw [h2]
          cases hr : (migrateLoopAux ok total bs fuel (offset + min bs (total - offset))
              (offset + min bs (total - offset))).2 with
          | nil => rw [hr] at hI; simp at hI
          | cons y ys =>
            rw [hr] at hI
            rw [List.getLast?_cons_cons]
            exact hI.1
      · have hok2 : ok offset = false := by simpa using hok
        rw [show migrateLoopAux ok total bs (fuel + 1) offset offset = (offset, [offset]) by
          simp [migrateLoopAux, hlt, hok2]] at ho ⊢
        simp only [List.mem_cons, List.not_mem_nil, or_false] at ho
        subst ho
        exact ⟨rfl, rfl⟩
    · rw [show migrateLoopAux ok total bs (fuel + 1) offset offset = (offset, []) by
        simp [migrateLoopAux, hlt]] at ho
      simp at ho

/-- C3 amended: the two drivers behave differently.  The ingestion driver
(`populate_collection`) attempts every batch regardless of failures: its
attempted batch starts do not depend on the per-batch outcomes.  The
migration driver (`migrate_data`) stops at the first exhausted batch: a
failed offset is the last one attempted (no subsequent batch is attempted)
and the returned success count equals the number of points upserted before
the failing batch — the run is aborted early, with the failure visible only
in the lower final count. -/
theorem driver_failure_behaviour (ok okB : Nat → Bool) (total bs : Nat) :
    (populate_collection ok total bs).1 = (populate_collection okB total bs).1 ∧
    (∀ o, o ∈ (migrate_data ok total bs).2 → ok o = false →
      (migrate_data ok total bs).2.getLast? = some o ∧
      (migrate_data ok total bs).1 = o) := by
  constructor
  · exact populateLoopAux_attempted total bs ok okB total 0
  · intro o ho hfalse
    exact migrateLoopAux_fail ok total bs total 0 o ho hfalse

theorem driver_failure_behaviour_witness :
    (populate_collection (fun o => decide (o ≠ 0)) 100 50).1 =
      (populate_collection (fun _ => true) 100 50).1 ∧
    (migrate_data (fun o => decide (o ≠ 0)) 100 50).2.getLast? = some 0 ∧
    (migrate_data (fun o => decide (o ≠ 0)) 100 50).1 = 0 :=
  ⟨(driver_failure_behaviour (fun o => decide (o ≠ 0)) (fun _ => true) 100 50).1,
   ((driver_failure_behaviour (fun o => decide (o ≠ 0)) (fun _ => true) 100 50).2 0
     (by decide) (by decide)).1,
   ((driver_failure_behaviour (fun o => decide (o ≠ 0)) (fun _ => true) 100 50).2 0
     (by decide) (by decide)).2⟩

/-! ## Collection initialization (C9): src/preprocess_data.py lines 82-99,
src/migrate_to_cloud.py lines 49-67, and both `main` drivers -/

/-- `initialize_collection` / `initialize_cloud_collection`: the delete is
wrapped in `try/except: pass`, so its outcome is ignored (deleting an absent
collection is not an error); a create failure propagates (`sys.exit(1)`
resp. an uncaught `raise` in `main`).  `true` = initialization succeeded. -/
def initialize_collection (deleteSucceeds createSucceeds : Bool) : Bool :=
  createSucceeds

/-- `main`: initialize, then — only on success — run the batch loop; a fatal
initialization failure (`none`) means no batch is attempted and no point
upserted. -/
def runDriver (deleteSucceeds createSucceeds : Bool) (ok : Nat → Bool)
    (total bs : Nat) : Option (Nat × List Nat) :=
  if initialize_collection deleteSucceeds createSucceeds then
    some (migrate_data ok total bs)
  else none

/-- C9: the run is identical whether or not the delete of a (possibly absent)
destination collection succeeds; a create failure is fatal — the driver
produces nothing and upserts no point — and on create success the run
proceeds to the batch loop. -/
theorem initialization_spec (d c : Bool) (ok : Nat → Bool) (total bs : Nat) :
    runDriver d c ok total bs = runDriver true c ok total bs ∧
    (c = false → runDriver d c ok total bs = none) ∧
    (c = true → runDriver d c ok total bs = some (migrate_data ok total bs)) := by
  refine ⟨rfl, ?_, ?_⟩ <;> intro h <;> subst h <;> simp [runDriver, initialize_collection]

theorem initialization_spec_witness :
    runDriver false true (fun _ => true) 3 2 = some (migrate_data (fun _ => true) 3 2) ∧
    runDriver false false (fun _ => true) 3 2 = none :=
  ⟨(initialization_spec false true (fun _ => true) 3 2).2.2 rfl,
   (initialization_spec false false (fun _ => true) 3 2).2.1 rfl⟩

end FueliPetrol
